import Mathlib

/-!
Verification of the Sento private-balance transfer engine.

The definitions below are a shallow embedding of the core payment logic of
the repository:

* `src/app/lib/utils/errors.ts` — error codes, `SentoError`, `parseError`;
* `src/app/lib/utils/format.ts` — `isValidPublicKey`;
* `src/app/lib/solana/constants.ts` — fee constants;
* `src/app/lib/hooks/usePayment.ts` — `payInvoice` (single payment flow);
* `src/app/lib/hooks/useBatchPayment.ts` — `executeBatch` (batch flow with
  per-recipient retry and backoff);
* the value-account selector of `light-protocol.ts` is not part of the
  sources and is modelled from the specification (see `select`).

External collaborators (indexer, prover, submitter, persistent stores) are
modelled as an environment record supplying the outcome of each external
call; the requests the code issues to them are collected in a trace of
`Action`s.  JS numbers holding lamport amounts are modelled as `ℤ`
(they are integral in every accounting path), `BigInt` values as `ℤ`,
and the SOL-denominated figures the code produces by dividing by 1e9 as
exact rationals `ℚ`.
-/

namespace Sento

/-- Error codes of `ERROR_CODES` in `src/app/lib/utils/errors.ts`. -/
inductive ErrorCode
  | WALLET_NOT_CONNECTED
  | WALLET_REJECTED
  | WALLET_DISCONNECTED
  | INSUFFICIENT_BALANCE
  | INSUFFICIENT_COMPRESSED_BALANCE
  | TRANSACTION_FAILED
  | TRANSACTION_TIMEOUT
  | TRANSACTION_CANCELLED
  | NETWORK_ERROR
  | RPC_ERROR
  | INVALID_ADDRESS
  | INVALID_AMOUNT
  | INVALID_INVOICE
  | COMPLIANCE_CHECK_FAILED
  | WALLET_NOT_COMPLIANT
  | STORAGE_ERROR
  | UNKNOWN_ERROR
  deriving DecidableEq, Repr

/-- User-facing messages of `ERROR_MESSAGES` in `errors.ts`. -/
def errorMessage : ErrorCode → String
  | .WALLET_NOT_CONNECTED => "Please connect your wallet to continue."
  | .WALLET_REJECTED => "You declined the transaction. Please try again."
  | .WALLET_DISCONNECTED => "Your wallet was disconnected. Please reconnect."
  | .INSUFFICIENT_BALANCE => "Insufficient balance. Please add more SOL to your wallet."
  | .INSUFFICIENT_COMPRESSED_BALANCE => "Insufficient private balance. Please compress more SOL first."
  | .TRANSACTION_FAILED => "Transaction failed. Please try again."
  | .TRANSACTION_TIMEOUT => "Transaction timed out. Please check your network and try again."
  | .TRANSACTION_CANCELLED => "Transaction was cancelled."
  | .NETWORK_ERROR => "Network error. Please check your connection and try again."
  | .RPC_ERROR => "Unable to connect to Solana. Please try again later."
  | .INVALID_ADDRESS => "Invalid wallet address. Please check and try again."
  | .INVALID_AMOUNT => "Invalid amount. Please enter a valid number."
  | .INVALID_INVOICE => "Invalid invoice. This invoice may not exist."
  | .COMPLIANCE_CHECK_FAILED => "Compliance check failed. Please try again."
  | .WALLET_NOT_COMPLIANT => "This wallet cannot be used for payments at this time."
  | .STORAGE_ERROR => "Failed to save data. Please try again."
  | .UNKNOWN_ERROR => "An unexpected error occurred. Please try again."

/-- The diagnostic context attached to the `INSUFFICIENT_BALANCE` error by
`payInvoice` and `executeBatch`: both figures are divided by 1e9 (SOL). -/
structure ErrCtx where
  walletBalance : ℚ
  needed : ℚ
  deriving DecidableEq, Repr

/-- A `SentoError`: a code plus the optional `{walletBalance, needed}`
context (`errors.ts`, class `SentoError`). -/
structure SentoErr where
  code : ErrorCode
  context : Option ErrCtx := none
  deriving DecidableEq, Repr

/-- The user-facing message carried by a `SentoError`. -/
def SentoErr.userMessage (e : SentoErr) : String :=
  errorMessage e.code

/-- A thrown JS error: either a `SentoError` raised by Sento code itself or
a plain `Error` (with its message) raised by an external library. -/
inductive JsError
  | sento (e : SentoErr)
  | plain (message : String)
  deriving DecidableEq, Repr

/-- `pat` is a prefix of `s` (character lists, `String.prototype.startsWith`). -/
def charsAreStart (pat s : List Char) : Bool :=
  match pat, s with
  | [], _ => true
  | _ :: _, [] => false
  | a :: pa, b :: sb => a == b && charsAreStart pa sb

/-- `pat` occurs as a contiguous substring of `s`
(JS `String.prototype.includes`). -/
def charsHaveSub (pat : List Char) : List Char → Bool
  | [] => charsAreStart pat []
  | c :: rest => charsAreStart pat (c :: rest) || charsHaveSub pat rest

/-- `s.includes(pat)` on strings. -/
def strIncludes (s pat : String) : Bool :=
  charsHaveSub pat.toList s.toList

/-- `parseError` of `errors.ts` applied to a plain `Error` with message
`msg`: the chain of lowercase substring checks, in source order. -/
def parseErrorMsg (msg : String) : SentoErr :=
  let m := msg.toLower
  if strIncludes m "wallet" && strIncludes m "not connected" then ⟨.WALLET_NOT_CONNECTED, none⟩
  else if strIncludes m "user rejected" || strIncludes m "user declined" then ⟨.WALLET_REJECTED, none⟩
  else if strIncludes m "disconnected" then ⟨.WALLET_DISCONNECTED, none⟩
  else if strIncludes m "insufficient" && strIncludes m "balance" then ⟨.INSUFFICIENT_BALANCE, none⟩
  else if strIncludes m "insufficient" && strIncludes m "compressed" then ⟨.INSUFFICIENT_COMPRESSED_BALANCE, none⟩
  else if strIncludes m "transaction" && strIncludes m "failed" then ⟨.TRANSACTION_FAILED, none⟩
  else if strIncludes m "timeout" || strIncludes m "timed out" then ⟨.TRANSACTION_TIMEOUT, none⟩
  else if strIncludes m "cancelled" || strIncludes m "canceled" then ⟨.TRANSACTION_CANCELLED, none⟩
  else if strIncludes m "network" || strIncludes m "fetch" then ⟨.NETWORK_ERROR, none⟩
  else if strIncludes m "rpc" || strIncludes m "connection refused" then ⟨.RPC_ERROR, none⟩
  else if strIncludes m "invalid" && strIncludes m "address" then ⟨.INVALID_ADDRESS, none⟩
  else if strIncludes m "invalid" && strIncludes m "amount" then ⟨.INVALID_AMOUNT, none⟩
  else if strIncludes m "compliance" then ⟨.COMPLIANCE_CHECK_FAILED, none⟩
  else if strIncludes m "not compliant" || strIncludes m "sanctioned" then ⟨.WALLET_NOT_COMPLIANT, none⟩
  else if strIncludes m "storage" || strIncludes m "localstorage" then ⟨.STORAGE_ERROR, none⟩
  else ⟨.UNKNOWN_ERROR, none⟩

/-- `parseError` of `errors.ts`: a `SentoError` passes through unchanged, a
plain error is classified by its message. -/
def parseError : JsError → SentoErr
  | .sento e => e
  | .plain msg => parseErrorMsg msg

/-- A character allowed by the base58 regex of `isValidPublicKey`
(`format.ts`): `[1-9A-HJ-NP-Za-km-z]`. -/
def isBase58Char (c : Char) : Bool :=
  (('1' ≤ c && c ≤ '9') || ('A' ≤ c && c ≤ 'H') || ('J' ≤ c && c ≤ 'N')
    || ('P' ≤ c && c ≤ 'Z') || ('a' ≤ c && c ≤ 'k') || ('m' ≤ c && c ≤ 'z'))

/-- `isValidPublicKey` of `src/app/lib/utils/format.ts`: the string matches
`^[1-9A-HJ-NP-Za-km-z]{32,44}$`. -/
def isValidPublicKey (address : String) : Bool :=
  32 ≤ address.length && address.length ≤ 44 && address.toList.all isBase58Char

/-- `LAMPORTS_PER_SOL` (`constants.ts`). -/
def LAMPORTS_PER_SOL : ℤ := 1000000000

/-- `SENTO_FEE_PERCENTAGE = 0.005` (`constants.ts`), as an exact rational. -/
def SENTO_FEE_PERCENTAGE : ℚ := 5 / 1000

/-- The fee reserve of `payInvoice` and `executeBatch`:
`0.01 * 1_000_000_000` lamports. -/
def FEE_RESERVE : ℤ := 10000000

/-- The message of the error thrown by the web3.js `PublicKey` constructor
(external library) when the address does not decode to a 32-byte key. -/
def PUBKEY_ERROR_MSG : String := "Invalid public key input"

/-- An invoice as consumed by `payInvoice` (`src/app/types/index.ts`,
fields not read by the payment flow are omitted). `amount` is in
lamports. -/
structure Invoice where
  id : String
  recipient : String
  amount : ℤ
  deriving DecidableEq, Repr

/-- `TransactionResult` (`src/app/types/index.ts`). -/
structure TransactionResult where
  success : Bool
  signature : Option String := none
  error : Option String := none
  deriving DecidableEq, Repr

/-- A request issued to an external collaborator, in issue order. `hide`
carries the SOL figure handed to `lpCompressSOL` (the code divides the
lamport shortfall by 1e9 first); `transfer` carries the destination and
lamport amount handed to `transferCompressedSOL`; the two save actions
record the writes handed to the persistence layer. -/
inductive Action
  | hide (amountSol : ℚ)
  | transfer (dest : String) (amount : ℤ)
  | saveBatch
  | saveInvoice (recipient : String) (amount : ℤ)
  deriving DecidableEq, Repr

/-- Whether an action is a `transferCompressedSOL` request. -/
def Action.isTransfer : Action → Bool
  | .transfer _ _ => true
  | _ => false

/-- Whether an action is an `lpCompressSOL` (Hide) request. -/
def Action.isHide : Action → Bool
  | .hide _ => true
  | _ => false

/-- The transfer requests of a trace. -/
def transferActs (t : List Action) : List Action :=
  t.filter Action.isTransfer

/-- The Hide requests of a trace. -/
def hideActs (t : List Action) : List Action :=
  t.filter Action.isHide

/-- The `saveInvoice` requests of a trace. -/
def saveInvoiceActs (t : List Action) : List Action :=
  t.filter fun a => match a with | .saveInvoice _ _ => true | _ => false

/-- The environment of one `payInvoice` call: configuration plus the reply
of every external call the flow can make.  External libraries throw plain
`Error`s, so their failures are modelled as messages. -/
structure PaymentEnv where
  /-- `PLATFORM_FEE_ENABLED` -/
  feeEnabled : Bool
  /-- `PLATFORM_FEE_WALLET` -/
  feeWallet : String
  /-- whether `new PublicKey(invoice.recipient)` succeeds -/
  recipientKeyOk : Bool
  /-- `getCompressedBalance(publicKey)` before any top-up (BigInt) -/
  compressedBalance : ℤ
  /-- `connection.getBalance(publicKey)` -/
  walletBalance : ℤ
  /-- `lpCompressSOL`: `none` is success, `some msg` a thrown error -/
  hideResult : Option String
  /-- amount-leg `transferCompressedSOL`: error message or signature -/
  amountTransfer : Except String String
  /-- fee-leg `transferCompressedSOL`: error message or signature -/
  feeTransfer : Except String String

/-- The platform fee of `payInvoice` (usePayment.ts, lines 117-119):
`Math.floor(invoice.amount * SENTO_FEE_PERCENTAGE)` when
`PLATFORM_FEE_ENABLED`, else `0`. -/
def feeLamports (feeEnabled : Bool) (amount : ℤ) : ℤ :=
  if feeEnabled then ⌊(amount : ℚ) * SENTO_FEE_PERCENTAGE⌋ else 0

/-- `totalLamports = invoice.amount + feeLamports` (usePayment.ts, line 120). -/
def totalLamports (feeEnabled : Bool) (amount : ℤ) : ℤ :=
  amount + feeLamports feeEnabled amount

/-- The transfer phase of `payInvoice` (usePayment.ts, lines 161-199): the
fee-wallet validity check, the amount-leg transfer, and — only when a fee
applies and the amount leg succeeded — the fee-leg transfer.  Returns the
outcome of the `try` block together with the requests issued. -/
def payTransfers (env : PaymentEnv) (invoice : Invoice) (fee : ℤ) :
    Except JsError String × List Action :=
  if fee > 0 && (env.feeWallet == "" || !isValidPublicKey env.feeWallet) then
    (.error (.sento ⟨.INVALID_ADDRESS, none⟩), [])
  else
    match env.amountTransfer with
    | .error msg => (.error (.plain msg), [.transfer invoice.recipient invoice.amount])
    | .ok signature =>
      if fee > 0 then
        match env.feeTransfer with
        | .error msg =>
            (.error (.plain msg),
              [.transfer invoice.recipient invoice.amount, .transfer env.feeWallet fee])
        | .ok _ =>
            (.ok signature,
              [.transfer invoice.recipient invoice.amount, .transfer env.feeWallet fee])
      else (.ok signature, [.transfer invoice.recipient invoice.amount])

/-- The body of the `try` block of `payInvoice` (usePayment.ts, lines
115-199): construct the recipient key, compute fee and total, auto-compress
exactly the shortfall when the compressed balance is below the total
(failing fast with `INSUFFICIENT_BALANCE` when the wallet cannot cover
shortfall plus fee reserve), then run the transfers. -/
def payInvoiceBody (env : PaymentEnv) (invoice : Invoice) :
    Except JsError String × List Action :=
  if env.recipientKeyOk then
    let fee := feeLamports env.feeEnabled invoice.amount
    let total := invoice.amount + fee
    if env.compressedBalance < total then
      let shortfall := total - env.compressedBalance
      let totalNeeded := shortfall + FEE_RESERVE
      if env.walletBalance < totalNeeded then
        (.error (.sento ⟨.INSUFFICIENT_BALANCE,
          some ⟨(env.walletBalance : ℚ) / (LAMPORTS_PER_SOL : ℚ),
                (totalNeeded : ℚ) / (LAMPORTS_PER_SOL : ℚ)⟩⟩), [])
      else
        let hideAct := Action.hide ((shortfall : ℚ) / (LAMPORTS_PER_SOL : ℚ))
        match env.hideResult with
        | some msg => (.error (.plain msg), [hideAct])
        | none =>
          let r := payTransfers env invoice fee
          (r.1, hideAct :: r.2)
    else
      payTransfers env invoice fee
  else (.error (.plain PUBKEY_ERROR_MSG), [])

/-- `payInvoice` (usePayment.ts): the `try` body wrapped by the `catch`
that converts any thrown error into a failed `TransactionResult` via
`parseError`. -/
def payInvoice (env : PaymentEnv) (invoice : Invoice) :
    TransactionResult × List Action :=
  match payInvoiceBody env invoice with
  | (.ok signature, t) => (⟨true, some signature, none⟩, t)
  | (.error e, t) => (⟨false, none, some (parseError e).userMessage⟩, t)

/-- One element of `ExecuteBatchOptions.recipients`
(useBatchPayment.ts, `BatchRecipientInput`). -/
structure BatchRecipientInput where
  wallet : String
  amount : ℤ
  note : Option String := none
  deriving DecidableEq, Repr

/-- The status of a batch recipient row. -/
inductive RecipStatus
  | pending
  | paid
  | failed
  deriving DecidableEq, Repr

/-- A `BatchRecipient` row (`src/app/types/index.ts`; the randomly
generated `id` is omitted). -/
structure BatchRecipient where
  wallet : String
  amount : ℤ
  note : Option String := none
  status : RecipStatus
  txSignature : Option String := none
  error : Option String := none
  deriving DecidableEq, Repr

/-- The derived batch status (`BatchPaymentStatus` minus the unused
`pending`); `mixed` is called `partial` in the source. -/
inductive BatchStatus
  | completed
  | mixed
  | failed
  deriving DecidableEq, Repr

/-- A `BatchPayment` record (`src/app/types/index.ts`; random id, team id,
proof hash and timestamp are omitted). -/
structure BatchPayment where
  creatorWallet : String
  totalAmount : ℤ
  status : BatchStatus
  recipients : List BatchRecipient
  deriving DecidableEq, Repr

/-- The environment of one `executeBatch` call.  Per-recipient external
outcomes are indexed by position in the sanitized recipient list and, for
transfers, by attempt number. -/
structure BatchEnv where
  /-- `publicKey.toBase58()` of the connected wallet -/
  sender : String
  /-- `getCompressedBalance(publicKey)` before any top-up (BigInt) -/
  compressedBalance : ℤ
  /-- `connection.getBalance(publicKey)` -/
  walletBalance : ℤ
  /-- `lpCompressSOL`: `none` is success, `some msg` a thrown error -/
  hideResult : Option String
  /-- whether `new PublicKey(recipient.wallet)` succeeds, per recipient -/
  keyOk : ℕ → Bool
  /-- `transferCompressedSOL` per recipient and attempt:
  error message or signature -/
  transferResults : ℕ → ℕ → Except String String
  /-- `saveBatchPayment`: `none` is success, `some msg` a thrown error -/
  saveBatchResult : Option String
  /-- `saveInvoice` per successful recipient (indexed by the recipient's
  position in the batch): `none` is success, `some msg` a thrown error -/
  saveInvoiceResult : ℕ → Option String

/-- `recipients.filter((r) => r.amount > 0 && isValidPublicKey(r.wallet))`
(useBatchPayment.ts, lines 58-60). -/
def sanitizeRecipients (recipients : List BatchRecipientInput) : List BatchRecipientInput :=
  recipients.filter fun r => decide (r.amount > 0) && isValidPublicKey r.wallet

/-- The queue-congestion classifier of the retry loop (useBatchPayment.ts,
lines 127-128): the error message includes `0x232a` or `9002`. -/
def isQueueIssue (msg : String) : Bool :=
  strIncludes msg "0x232a" || strIncludes msg "9002"

/-- `maxAttempts = 3` (useBatchPayment.ts, line 108). -/
def MAX_ATTEMPTS : ℕ := 3

/-- The `while (attempts < maxAttempts)` retry loop for one recipient
(useBatchPayment.ts, lines 107-142), as a recursion on the remaining fuel
`maxAttempts - attempts`.  `results i` is the outcome of the `i`-th
transfer invocation.  Returns the outcome the loop settles on (the thrown
error, for a failure), the number of transfer invocations made, and the
backoff delays (ms) slept between attempts. -/
def retryGo (results : ℕ → Except String String) (maxAttempts : ℕ) :
    ℕ → ℕ → Option String → Except String String × ℕ × List ℕ
  | 0, attempts, lastError => (.error (lastError.getD ""), attempts, [])
  | fuel + 1, attempts, _ =>
    match results attempts with
    | .ok signature => (.ok signature, attempts + 1, [])
    | .error msg =>
      if isQueueIssue msg && decide (attempts + 1 < maxAttempts) then
        let r := retryGo results maxAttempts fuel (attempts + 1) (some msg)
        (r.1, r.2.1, (attempts + 1) * 2000 :: r.2.2)
      else (.error msg, attempts + 1, [])

/-- The full retry loop, started at `attempts = 0` with
`maxAttempts = MAX_ATTEMPTS`. -/
def retryTransfer (results : ℕ → Except String String) :
    Except String String × ℕ × List ℕ :=
  retryGo results MAX_ATTEMPTS MAX_ATTEMPTS 0 none

/-- Processing of one batch recipient (useBatchPayment.ts, lines 102-149):
key construction, the retry loop, and the per-recipient `catch` that marks
the row failed with the parsed error message.  Returns the updated row,
the number of transfer invocations, and the backoff delays. -/
def processRecipient (keyOk : Bool) (results : ℕ → Except String String)
    (r : BatchRecipient) : BatchRecipient × ℕ × List ℕ :=
  if keyOk then
    match retryTransfer results with
    | (.ok signature, n, ds) =>
        ({r with status := .paid, txSignature := some signature}, n, ds)
    | (.error msg, n, ds) =>
        ({r with status := .failed, error := some (parseErrorMsg msg).userMessage}, n, ds)
  else
    ({r with status := .failed, error := some (parseErrorMsg PUBKEY_ERROR_MSG).userMessage}, 0, [])

/-- The sequential loop over the batch recipients, threading the recipient
index; each recipient's transfer invocations are recorded in the trace. -/
def runRecipients (keyOk : ℕ → Bool) (results : ℕ → ℕ → Except String String) :
    ℕ → List BatchRecipient → List BatchRecipient × List Action
  | _, [] => ([], [])
  | i, r :: rest =>
    let p := processRecipient (keyOk i) (results i) r
    let next := runRecipients keyOk results (i + 1) rest
    (p.1 :: next.1,
      List.replicate p.2.1 (Action.transfer r.wallet r.amount) ++ next.2)

/-- The batch status derivation (useBatchPayment.ts, lines 155-159):
`completed` if every row is paid, else `partial` (`mixed`) if some row is
paid, else `failed`. -/
def deriveStatus (rs : List BatchRecipient) : BatchStatus :=
  if rs.all fun r => r.status == .paid then .completed
  else if rs.any fun r => r.status == .paid then .mixed
  else .failed

/-- The invoice-creation loop over the successful recipients
(useBatchPayment.ts, lines 180-204): each `saveInvoice` is attempted; a
thrown error is caught and only logged, so both branches continue
identically. -/
def saveInvoicesLoop (saveResult : ℕ → Option String) :
    ℕ → List BatchRecipient → List Action
  | _, [] => []
  | i, r :: rest =>
    match saveResult i with
    | some _msg => Action.saveInvoice r.wallet r.amount :: saveInvoicesLoop saveResult (i + 1) rest
    | none => Action.saveInvoice r.wallet r.amount :: saveInvoicesLoop saveResult (i + 1) rest

/-- The auto-top-up step of `executeBatch` (useBatchPayment.ts, lines
71-91): when the compressed balance is below the aggregate `total`, check
that the wallet covers shortfall plus fee reserve (else throw
`INSUFFICIENT_BALANCE` with both figures in SOL) and request a Hide of
exactly the shortfall. -/
def batchTopUp (env : BatchEnv) (total : ℤ) : Except JsError Unit × List Action :=
  if env.compressedBalance < total then
    let shortfall := total - env.compressedBalance
    let totalNeeded := shortfall + FEE_RESERVE
    if env.walletBalance < totalNeeded then
      (.error (.sento ⟨.INSUFFICIENT_BALANCE,
        some ⟨(env.walletBalance : ℚ) / (LAMPORTS_PER_SOL : ℚ),
              (totalNeeded : ℚ) / (LAMPORTS_PER_SOL : ℚ)⟩⟩), [])
    else
      let hideAct := Action.hide ((shortfall : ℚ) / (LAMPORTS_PER_SOL : ℚ))
      match env.hideResult with
      | some msg => (.error (.plain msg), [hideAct])
      | none => (.ok (), [hideAct])
  else (.ok (), [])

/-- The settlement phase of `executeBatch` after a successful top-up
(useBatchPayment.ts, lines 93-209): process the recipients sequentially
with retry, derive the batch status, persist the batch record, then create
invoices for the successful recipients (invoice failures are swallowed). -/
def batchSettle (env : BatchEnv) (total : ℤ) (sanitized : List BatchRecipientInput) :
    Except JsError BatchPayment × List Action :=
  let pending := sanitized.map fun r =>
    ({wallet := r.wallet, amount := r.amount, note := r.note,
      status := .pending} : BatchRecipient)
  let run := runRecipients env.keyOk env.transferResults 0 pending
  let processed := run.1
  let batch : BatchPayment := ⟨env.sender, total, deriveStatus processed, processed⟩
  let acts2 := run.2 ++ [Action.saveBatch]
  match env.saveBatchResult with
  | some msg => (.error (.plain msg), acts2)
  | none =>
    let paidRows := processed.filter fun r => r.status == .paid
    (.ok batch, acts2 ++ saveInvoicesLoop env.saveInvoiceResult 0 paidRows)

/-- The body of the `try` block of `executeBatch` (useBatchPayment.ts,
lines 57-209): sanitize the recipients, compute the aggregate, run the
auto-top-up step, then (when it did not throw) the settlement phase. -/
def executeBatchBody (env : BatchEnv) (recipients : List BatchRecipientInput) :
    Except JsError BatchPayment × List Action :=
  let sanitized := sanitizeRecipients recipients
  if sanitized.isEmpty then (.error (.sento ⟨.INVALID_ADDRESS, none⟩), [])
  else
    let total := (sanitized.map (·.amount)).sum
    match batchTopUp env total with
    | (.error e, acts) => (.error e, acts)
    | (.ok _, acts) =>
      let r := batchSettle env total sanitized
      (r.1, acts ++ r.2)

/-- `executeBatch` (useBatchPayment.ts): the `try` body wrapped by the
`catch` that returns `null` on any thrown error. -/
def executeBatch (env : BatchEnv) (recipients : List BatchRecipientInput) :
    Option BatchPayment × List Action :=
  match executeBatchBody env recipients with
  | (.ok batch, t) => (some batch, t)
  | (.error _, t) => (none, t)

/-- The account-count ceiling (4) of §4.1/§6 of the spec. -/
def MAX_ACCOUNTS : ℕ := 4

/-- The result of the value-account selector: the selected face amounts,
their running total, and whether the total reached the target. -/
structure SelectResult where
  selected : List ℕ
  total : ℕ
  ok : Bool
  deriving DecidableEq, Repr

/-- Descending insertion keeping equal amounts in their original relative
order (the spec requires a deterministic, stable tie-break). -/
def insertDesc (a : ℕ) : List ℕ → List ℕ
  | [] => [a]
  | b :: rest => if b < a then a :: b :: rest else b :: insertDesc a rest

/-- Stable descending sort by face amount. -/
def sortDesc (l : List ℕ) : List ℕ :=
  l.foldr insertDesc []

/-- Greedy accumulation: take accounts from the sorted list until the
running total reaches the target or the selection holds `MAX_ACCOUNTS`
accounts. -/
def selectGo (target : ℕ) : List ℕ → List ℕ → ℕ → List ℕ × ℕ
  | [], sel, tot => (sel, tot)
  | a :: rest, sel, tot =>
    if target ≤ tot ∨ MAX_ACCOUNTS ≤ sel.length then (sel, tot)
    else selectGo target rest (sel ++ [a]) (tot + a)

/-- Modelled from the spec: the `ValueAccountSelector` of §4.1 lives in
`light-protocol.ts`, which is not among the sources; its contract is
`select(accounts, target) -> (selected, total, ok)`: sort the accounts
descending by face amount, greedily accumulate until the running total
reaches the target or the selection reaches the hard ceiling of 4
accounts, with `ok` true only if the running total reached the target
within the ceiling. -/
def select (accounts : List ℕ) (target : ℕ) : SelectResult :=
  let g := selectGo target (sortDesc accounts) [] 0
  ⟨g.1, g.2, decide (target ≤ g.2)⟩

/-- A syntactically valid base58 address (32 characters), used as concrete
input in the witness theorems below. -/
def keyA : String := "AAAAAAAAAAAAAAAAAAAAAAAAAAAAAAAA"

/-- A second valid base58 address for fee-wallet and batch witnesses. -/
def keyB : String := "BBBBBBBBBBBBBBBBBBBBBBBBBBBBBBBB"

/-- A third valid base58 address for batch-sender witnesses. -/
def keyC : String := "CCCCCCCCCCCCCCCCCCCCCCCCCCCCCCCC"

/-- A concrete invoice for the witnesses: pay 10 lamports to `keyA`. -/
def wInv : Invoice := ⟨"inv-1", keyA, 10⟩

/-- A payment environment that needs a top-up (compressed balance 3 below
the required 10) and has ample wallet balance. -/
def wPayEnvTopUp : PaymentEnv :=
  ⟨false, "", true, 3, 10000000000, none, .ok "sigA", .ok "sigF"⟩

/-- A payment environment whose compressed balance already covers the
required total. -/
def wPayEnvRich : PaymentEnv :=
  ⟨false, "", true, 100, 10000000000, none, .ok "sigA", .ok "sigF"⟩

/-- A payment environment that needs a top-up but whose wallet balance is
below shortfall plus fee reserve. -/
def wPayEnvPoor : PaymentEnv :=
  ⟨false, "", true, 3, 2, none, .ok "sigA", .ok "sigF"⟩

/-- A fee-paying environment (fee enabled, valid fee wallet, rich balance)
whose fee-leg transfer fails. -/
def wPayEnvFeeFail : PaymentEnv :=
  ⟨true, keyB, true, 10000000000, 10000000000, none, .ok "sigA", .error "boom"⟩

/-- A batch environment that needs a top-up (compressed balance 0) and has
ample wallet balance; every transfer and save succeeds. -/
def wBatchEnv : BatchEnv :=
  ⟨keyC, 0, 10000000000, none, fun _ => true, fun _ _ => .ok "sigT", none, fun _ => none⟩

/-- A batch environment with a large compressed balance; every transfer
and save succeeds, while every per-recipient invoice save throws. -/
def wBatchEnvRich : BatchEnv :=
  ⟨keyC, 10000000000, 10000000000, none, fun _ => true, fun _ _ => .ok "sigT", none,
    fun _ => some "db down"⟩

/-- A batch environment that needs a top-up but whose wallet balance is
below shortfall plus fee reserve. -/
def wBatchEnvPoor : BatchEnv :=
  ⟨keyC, 0, 2, none, fun _ => true, fun _ _ => .ok "sigT", none, fun _ => none⟩

/-- A single-recipient batch request list: 500 lamports to `keyA`. -/
def wReqs : List BatchRecipientInput := [⟨keyA, 500, none⟩]

/-- A transfer oracle that fails every attempt with the queue-congestion
error code. -/
def wResultsCongest : ℕ → Except String String := fun _ => .error "0x232a"

/-- A transfer oracle that fails the first attempt with a non-congestion
error. -/
def wResultsTerminal : ℕ → Except String String := fun _ => .error "boom"

/-- A pending batch-recipient row for the retry witnesses. -/
def wRecipient : BatchRecipient := ⟨keyA, 500, none, .pending, none, none⟩

/-- The batch record produced by `executeBatch wBatchEnvRich wReqs`. -/
def wBatch : BatchPayment :=
  ⟨keyC, 500, .completed, [⟨keyA, 500, none, .paid, some "sigT", none⟩]⟩

/-- A larger invoice (1,000,000 lamports) whose platform fee is nonzero. -/
def wInvBig : Invoice := ⟨"inv-2", keyA, 1000000⟩

/-- A batch request list whose every element is invalid: a malformed
destination and a non-positive amount. -/
def wBadReqs : List BatchRecipientInput := [⟨"bad", 5, none⟩, ⟨keyB, -3, none⟩]

theorem payTransfers_trace_cases (env : PaymentEnv) (inv : Invoice) (fee : ℤ) :
    (payTransfers env inv fee).2 = [] ∨
    (payTransfers env inv fee).2 = [Action.transfer inv.recipient inv.amount] ∨
    (payTransfers env inv fee).2 =
      [Action.transfer inv.recipient inv.amount, Action.transfer env.feeWallet fee] := by
  unfold payTransfers
  split
  · exact Or.inl rfl
  · split
    · exact Or.inr (Or.inl rfl)
    · split
      · split
        · exact Or.inr (Or.inr rfl)
        · exact Or.inr (Or.inr rfl)
      · exact Or.inr (Or.inl rfl)

theorem payTransfers_no_hide (env : PaymentEnv) (inv : Invoice) (fee : ℤ) (q : ℚ) :
    Action.hide q ∉ (payTransfers env inv fee).2 := by
  rcases payTransfers_trace_cases env inv fee with h | h | h <;> simp [h]

theorem payTransfers_not_insuff (env : PaymentEnv) (inv : Invoice) (fee : ℤ) (c : ErrCtx) :
    (payTransfers env inv fee).1 ≠ .error (.sento ⟨.INSUFFICIENT_BALANCE, some c⟩) := by
  unfold payTransfers
  split
  · simp
  · split
    · simp
    · split
      · split
        · simp
        · simp
      · simp

theorem payInvoiceBody_hide_mem (env : PaymentEnv) (inv : Invoice) (q : ℚ)
    (h : Action.hide q ∈ (payInvoiceBody env inv).2) :
    q = ((totalLamports env.feeEnabled inv.amount - env.compressedBalance : ℤ) : ℚ) /
      (LAMPORTS_PER_SOL : ℚ) := by
  rw [totalLamports]
  simp only [payInvoiceBody] at h
  by_cases hk : env.recipientKeyOk = true
  · rw [if_pos hk] at h
    by_cases hc : env.compressedBalance < inv.amount + feeLamports env.feeEnabled inv.amount
    · rw [if_pos hc] at h
      by_cases hw : env.walletBalance <
          inv.amount + feeLamports env.feeEnabled inv.amount - env.compressedBalance + FEE_RESERVE
      · rw [if_pos hw] at h
        simp at h
      · rw [if_neg hw] at h
        cases hh : env.hideResult with
        | some msg =>
          rw [hh] at h
          simp only [List.mem_singleton, Action.hide.injEq] at h
          exact h
        | none =>
          rw [hh] at h
          simp only [List.mem_cons, Action.hide.injEq] at h
          rcases h with h1 | h1
          · exact h1
          · exact absurd h1 (payTransfers_no_hide env inv (feeLamports env.feeEnabled inv.amount) q)
    · rw [if_neg hc] at h
      exact absurd h (payTransfers_no_hide env inv _ q)
  · rw [if_neg hk] at h
    simp at h

theorem batchTopUp_hide_mem (env : BatchEnv) (total : ℤ) (q : ℚ)
    (h : Action.hide q ∈ (batchTopUp env total).2) :
    q = ((total - env.compressedBalance : ℤ) : ℚ) / (LAMPORTS_PER_SOL : ℚ) := by
  simp only [batchTopUp] at h
  by_cases hc : env.compressedBalance < total
  · rw [if_pos hc] at h
    by_cases hw : env.walletBalance < total - env.compressedBalance + FEE_RESERVE
    · rw [if_pos hw] at h
      simp at h
    · rw [if_neg hw] at h
      cases hh : env.hideResult with
      | some msg =>
        rw [hh] at h
        simp only [List.mem_singleton, Action.hide.injEq] at h
        exact h
      | none =>
        rw [hh] at h
        simp only [List.mem_singleton, Action.hide.injEq] at h
        exact h
  · rw [if_neg hc] at h
    simp at h

theorem batchTopUp_of_ge (env : BatchEnv) (total : ℤ) (hc : ¬ env.compressedBalance < total) :
    batchTopUp env total = (.ok (), []) := by
  simp only [batchTopUp]
  rw [if_neg hc]

theorem runRecipients_trace_mem (keyOk : ℕ → Bool) (results : ℕ → ℕ → Except String String) :
    ∀ (pend : List BatchRecipient) (i : ℕ) (a : Action),
      a ∈ (runRecipients keyOk results i pend).2 →
      ∃ r ∈ pend, a = Action.transfer r.wallet r.amount := by
  intro pend
  induction pend with
  | nil => intro i a h; simp [runRecipients] at h
  | cons r rest ih =>
    intro i a h
    rw [runRecipients] at h
    rcases List.mem_append.mp h with h1 | h1
    · refine ⟨r, List.mem_cons_self r rest, ?_⟩
      exact (List.eq_of_mem_replicate h1)
    · obtain ⟨r2, hr2, he⟩ := ih (i + 1) a h1
      exact ⟨r2, List.mem_cons_of_mem r hr2, he⟩

theorem runRecipients_length (keyOk : ℕ → Bool) (results : ℕ → ℕ → Except String String) :
    ∀ (pend : List BatchRecipient) (i : ℕ),
      (runRecipients keyOk results i pend).1.length = pend.length := by
  intro pend
  induction pend with
  | nil => intro i; simp [runRecipients]
  | cons r rest ih => intro i; simp [runRecipients, ih]

theorem saveInvoicesLoop_eq_map (saveResult : ℕ → Option String) :
    ∀ (rs : List BatchRecipient) (i : ℕ),
      saveInvoicesLoop saveResult i rs =
        rs.map fun r => Action.saveInvoice r.wallet r.amount := by
  intro rs
  induction rs with
  | nil => intro i; simp [saveInvoicesLoop]
  | cons r rest ih =>
    intro i
    rw [saveInvoicesLoop]
    cases saveResult i <;> simp [ih]

theorem batchSettle_no_hide (env : BatchEnv) (total : ℤ)
    (sanitized : List BatchRecipientInput) (q : ℚ) :
    Action.hide q ∉ (batchSettle env total sanitized).2 := by
  intro h
  simp only [batchSettle] at h
  cases hs : env.saveBatchResult with
  | some msg =>
    rw [hs] at h
    rcases List.mem_append.mp h with h1 | h1
    · obtain ⟨r, _, he⟩ := runRecipients_trace_mem env.keyOk env.transferResults _ _ _ h1
      exact absurd he (by simp)
    · simp at h1
  | none =>
    rw [hs] at h
    rcases List.mem_append.mp h with h1 | h1
    · rcases List.mem_append.mp h1 with h2 | h2
      · obtain ⟨r, _, he⟩ := runRecipients_trace_mem env.keyOk env.transferResults _ _ _ h2
        exact absurd he (by simp)
      · simp at h2
    · rw [saveInvoicesLoop_eq_map] at h1
      obtain ⟨r, _, he⟩ := List.mem_map.mp h1
      exact absurd he.symm (by simp)

theorem executeBatchBody_hide_mem (env : BatchEnv) (rs : List BatchRecipientInput) (q : ℚ)
    (h : Action.hide q ∈ (executeBatchBody env rs).2) :
    q = ((((sanitizeRecipients rs).map (·.amount)).sum - env.compressedBalance : ℤ) : ℚ) /
      (LAMPORTS_PER_SOL : ℚ) := by
  simp only [executeBatchBody] at h
  by_cases he : (sanitizeRecipients rs).isEmpty
  · rw [if_pos he] at h
    simp at h
  · rw [if_neg he] at h
    rcases hm : batchTopUp env ((sanitizeRecipients rs).map (·.amount)).sum with ⟨res, acts⟩
    cases res with
    | error e =>
      rw [hm] at h
      have := batchTopUp_hide_mem env _ q (by rw [hm]; exact h)
      exact this
    | ok u =>
      rw [hm] at h
      simp only at h
      rcases List.mem_append.mp h with h1 | h1
      · exact batchTopUp_hide_mem env _ q (by rw [hm]; exact h1)
      · exact absurd h1 (batchSettle_no_hide env _ _ q)

theorem selectGo_length_le (target : ℕ) :
    ∀ (l sel : List ℕ) (tot : ℕ), sel.length ≤ MAX_ACCOUNTS →
      (selectGo target l sel tot).1.length ≤ MAX_ACCOUNTS := by
  intro l
  induction l with
  | nil => intro sel tot h; simpa [selectGo] using h
  | cons a rest ih =>
    intro sel tot h
    rw [selectGo]
    split
    · simpa using h
    · rename_i hc
      push_neg at hc
      have : sel.length + 1 ≤ MAX_ACCOUNTS := by omega
      simpa using ih (sel ++ [a]) (tot + a) (by simpa using this)

theorem selectGo_total_eq_sum (target : ℕ) :
    ∀ (l sel : List ℕ) (tot : ℕ), tot = sel.sum →
      (selectGo target l sel tot).2 = (selectGo target l sel tot).1.sum := by
  intro l
  induction l with
  | nil => intro sel tot h; simpa [selectGo] using h
  | cons a rest ih =>
    intro sel tot h
    rw [selectGo]
    split
    · simpa using h
    · exact ih (sel ++ [a]) (tot + a) (by simp [h])

/-- C9: for any set of available value-accounts and any target amount, the
selector never returns more than 4 accounts, and returns `ok = true`
exactly when the running total of the greedily-accumulated
descending-sorted accounts (which is the sum of the selected accounts)
reaches the target within the 4-account ceiling. -/
theorem selector_ceiling (accounts : List ℕ) (target : ℕ) :
    (select accounts target).selected.length ≤ MAX_ACCOUNTS ∧
    ((select accounts target).ok = true ↔ target ≤ (select accounts target).total) ∧
    (select accounts target).total = (select accounts target).selected.sum := by
  refine ⟨?_, ?_, ?_⟩
  · exact selectGo_length_le target (sortDesc accounts) [] 0 (by simp [MAX_ACCOUNTS])
  · simp [select]
  · exact selectGo_total_eq_sum target (sortDesc accounts) [] 0 (by simp)

theorem batchTopUp_insuff (env : BatchEnv) (total : ℤ) (c : ErrCtx)
    (h : (batchTopUp env total).1 = .error (.sento ⟨.INSUFFICIENT_BALANCE, some c⟩)) :
    env.compressedBalance < total ∧
    env.walletBalance < total - env.compressedBalance + FEE_RESERVE ∧
    c = ⟨(env.walletBalance : ℚ) / (LAMPORTS_PER_SOL : ℚ),
         ((total - env.compressedBalance + FEE_RESERVE : ℤ) : ℚ) / (LAMPORTS_PER_SOL : ℚ)⟩ ∧
    (batchTopUp env total).2 = [] := by
  simp only [batchTopUp] at h ⊢
  by_cases hc : env.compressedBalance < total
  · rw [if_pos hc] at h ⊢
    by_cases hw : env.walletBalance < total - env.compressedBalance + FEE_RESERVE
    · rw [if_pos hw] at h ⊢
      simp only [Except.error.injEq, JsError.sento.injEq, SentoErr.mk.injEq,
        Option.some.injEq, true_and] at h
      exact ⟨hc, hw, h.symm, rfl⟩
    · rw [if_neg hw] at h
      cases hh : env.hideResult with
      | some msg => rw [hh] at h; simp at h
      | none => rw [hh] at h; simp at h
  · rw [if_neg hc] at h
    simp at h

theorem batchTopUp_insuff_mk (env : BatchEnv) (total : ℤ)
    (hc : env.compressedBalance < total)
    (hw : env.walletBalance < total - env.compressedBalance + FEE_RESERVE) :
    batchTopUp env total = (.error (.sento ⟨.INSUFFICIENT_BALANCE,
      some ⟨(env.walletBalance : ℚ) / (LAMPORTS_PER_SOL : ℚ),
            ((total - env.compressedBalance + FEE_RESERVE : ℤ) : ℚ) /
              (LAMPORTS_PER_SOL : ℚ)⟩⟩), []) := by
  simp only [batchTopUp]
  rw [if_pos hc, if_pos hw]

theorem batchSettle_not_insuff (env : BatchEnv) (total : ℤ)
    (sanitized : List BatchRecipientInput) (c : ErrCtx) :
    (batchSettle env total sanitized).1 ≠ .error (.sento ⟨.INSUFFICIENT_BALANCE, some c⟩) := by
  simp only [batchSettle]
  cases env.saveBatchResult <;> simp

theorem hideActs_eq_nil (t : List Action) (h : ∀ q : ℚ, Action.hide q ∉ t) :
    hideActs t = [] := by
  rw [hideActs, List.filter_eq_nil_iff]
  intro a ha
  cases a with
  | hide q => exact absurd ha (h q)
  | transfer d x => simp [Action.isHide]
  | saveBatch => simp [Action.isHide]
  | saveInvoice r x => simp [Action.isHide]

theorem lamports_per_sol_q_ne : ((LAMPORTS_PER_SOL : ℤ) : ℚ) ≠ 0 := by
  norm_num [LAMPORTS_PER_SOL]

/-- C1: every Hide request issued by the single-payment flow or the batch
flow is for exactly `required - current` (stated on the SOL figure handed
to the compress call: times 1e9 it is the lamport shortfall), and when the
current compressed balance already covers the required total no Hide is
requested at all. -/
theorem autoTopUp_hide_exact :
    (∀ (env : PaymentEnv) (inv : Invoice) (q : ℚ),
        Action.hide q ∈ (payInvoiceBody env inv).2 →
        q * (LAMPORTS_PER_SOL : ℚ) =
          ((totalLamports env.feeEnabled inv.amount - env.compressedBalance : ℤ) : ℚ)) ∧
    (∀ (env : PaymentEnv) (inv : Invoice),
        totalLamports env.feeEnabled inv.amount ≤ env.compressedBalance →
        hideActs (payInvoiceBody env inv).2 = []) ∧
    (∀ (env : BatchEnv) (rs : List BatchRecipientInput) (q : ℚ),
        Action.hide q ∈ (executeBatchBody env rs).2 →
        q * (LAMPORTS_PER_SOL : ℚ) =
          ((((sanitizeRecipients rs).map (·.amount)).sum - env.compressedBalance : ℤ) : ℚ)) ∧
    (∀ (env : BatchEnv) (rs : List BatchRecipientInput),
        (((sanitizeRecipients rs).map (·.amount)).sum ≤ env.compressedBalance →
        hideActs (executeBatchBody env rs).2 = [])) := by
  refine ⟨?_, ?_, ?_, ?_⟩
  · intro env inv q h
    rw [payInvoiceBody_hide_mem env inv q h, div_mul_cancel₀ _ lamports_per_sol_q_ne]
  · intro env inv h
    apply hideActs_eq_nil
    intro q hq
    have := payInvoiceBody_hide_mem env inv q hq
    simp only [payInvoiceBody] at hq
    by_cases hk : env.recipientKeyOk = true
    · rw [if_pos hk] at hq
      rw [if_neg (by rw [← totalLamports]; exact not_lt.mpr h)] at hq
      exact payTransfers_no_hide env inv _ q hq
    · rw [if_neg hk] at hq
      simp at hq
  · intro env rs q h
    rw [executeBatchBody_hide_mem env rs q h, div_mul_cancel₀ _ lamports_per_sol_q_ne]
  · intro env rs h
    apply hideActs_eq_nil
    intro q hq
    simp only [executeBatchBody] at hq
    by_cases he : (sanitizeRecipients rs).isEmpty
    · rw [if_pos he] at hq
      simp at hq
    · rw [if_neg he] at hq
      rw [batchTopUp_of_ge env _ (not_lt.mpr h)] at hq
      simp only [List.nil_append] at hq
      exact batchSettle_no_hide env _ _ q hq

/-- Witness for C1: concrete instances for each hypothesis-bearing
conjunct. -/
theorem autoTopUp_hide_exact_witness :
    (Action.hide (((7 : ℤ) : ℚ) / ((LAMPORTS_PER_SOL : ℤ) : ℚ)) ∈
        (payInvoiceBody wPayEnvTopUp wInv).2 ∧
      (((7 : ℤ) : ℚ) / ((LAMPORTS_PER_SOL : ℤ) : ℚ)) * (LAMPORTS_PER_SOL : ℚ) =
        ((totalLamports wPayEnvTopUp.feeEnabled wInv.amount -
          wPayEnvTopUp.compressedBalance : ℤ) : ℚ)) ∧
    (totalLamports wPayEnvRich.feeEnabled wInv.amount ≤ wPayEnvRich.compressedBalance ∧
      hideActs (payInvoiceBody wPayEnvRich wInv).2 = []) ∧
    (Action.hide (((500 : ℤ) : ℚ) / ((LAMPORTS_PER_SOL : ℤ) : ℚ)) ∈
        (executeBatchBody wBatchEnv wReqs).2 ∧
      (((500 : ℤ) : ℚ) / ((LAMPORTS_PER_SOL : ℤ) : ℚ)) * (LAMPORTS_PER_SOL : ℚ) =
        ((((sanitizeRecipients wReqs).map (·.amount)).sum -
          wBatchEnv.compressedBalance : ℤ) : ℚ)) ∧
    (((sanitizeRecipients wReqs).map (·.amount)).sum ≤ wBatchEnvRich.compressedBalance ∧
      hideActs (executeBatchBody wBatchEnvRich wReqs).2 = []) := by
  have ht1 : (payInvoiceBody wPayEnvTopUp wInv).2 =
      [Action.hide (((7 : ℤ) : ℚ) / ((LAMPORTS_PER_SOL : ℤ) : ℚ)),
       Action.transfer keyA 10] := rfl
  have hm1 : Action.hide (((7 : ℤ) : ℚ) / ((LAMPORTS_PER_SOL : ℤ) : ℚ)) ∈
      (payInvoiceBody wPayEnvTopUp wInv).2 := by
    rw [ht1]; exact List.mem_cons_self _ _
  have ht3 : (executeBatchBody wBatchEnv wReqs).2 =
      [Action.hide (((500 : ℤ) : ℚ) / ((LAMPORTS_PER_SOL : ℤ) : ℚ)),
       Action.transfer keyA 500, Action.saveBatch, Action.saveInvoice keyA 500] := rfl
  have hm3 : Action.hide (((500 : ℤ) : ℚ) / ((LAMPORTS_PER_SOL : ℤ) : ℚ)) ∈
      (executeBatchBody wBatchEnv wReqs).2 := by
    rw [ht3]; exact List.mem_cons_self _ _
  refine ⟨⟨hm1, autoTopUp_hide_exact.1 wPayEnvTopUp wInv _ hm1⟩,
    ⟨by decide, autoTopUp_hide_exact.2.1 wPayEnvRich wInv (by decide)⟩,
    ⟨hm3, autoTopUp_hide_exact.2.2.1 wBatchEnv wReqs _ hm3⟩,
    ⟨by decide, autoTopUp_hide_exact.2.2.2 wBatchEnvRich wReqs (by decide)⟩⟩

theorem payBody_insuff_inv (env : PaymentEnv) (inv : Invoice) (c : ErrCtx)
    (h : (payInvoiceBody env inv).1 = .error (.sento ⟨.INSUFFICIENT_BALANCE, some c⟩)) :
    (env.recipientKeyOk = true ∧
      env.compressedBalance < totalLamports env.feeEnabled inv.amount ∧
      env.walletBalance <
        totalLamports env.feeEnabled inv.amount - env.compressedBalance + FEE_RESERVE) ∧
    c = ⟨(env.walletBalance : ℚ) / (LAMPORTS_PER_SOL : ℚ),
         ((totalLamports env.feeEnabled inv.amount - env.compressedBalance +
           FEE_RESERVE : ℤ) : ℚ) / (LAMPORTS_PER_SOL : ℚ)⟩ ∧
    (payInvoiceBody env inv).2 = [] := by
  rw [totalLamports]
  simp only [payInvoiceBody] at h ⊢
  by_cases hk : env.recipientKeyOk = true
  · rw [if_pos hk] at h ⊢
    by_cases hc : env.compressedBalance < inv.amount + feeLamports env.feeEnabled inv.amount
    · rw [if_pos hc] at h ⊢
      by_cases hw : env.walletBalance <
          inv.amount + feeLamports env.feeEnabled inv.amount - env.compressedBalance + FEE_RESERVE
      · rw [if_pos hw] at h ⊢
        simp only [Except.error.injEq, JsError.sento.injEq, SentoErr.mk.injEq,
          Option.some.injEq, true_and] at h
        exact ⟨⟨hk, hc, hw⟩, h.symm, rfl⟩
      · rw [if_neg hw] at h
        cases hh : env.hideResult with
        | some msg => rw [hh] at h; simp at h
        | none =>
          rw [hh] at h
          simp only at h
          exact absurd h (payTransfers_not_insuff env inv _ c)
    · rw [if_neg hc] at h
      exact absurd h (payTransfers_not_insuff env inv _ c)
  · rw [if_neg hk] at h
    simp at h

theorem payBody_insuff_mk (env : PaymentEnv) (inv : Invoice)
    (hk : env.recipientKeyOk = true)
    (hc : env.compressedBalance < totalLamports env.feeEnabled inv.amount)
    (hw : env.walletBalance <
      totalLamports env.feeEnabled inv.amount - env.compressedBalance + FEE_RESERVE) :
    (payInvoiceBody env inv).1 = .error (.sento ⟨.INSUFFICIENT_BALANCE,
      some ⟨(env.walletBalance : ℚ) / (LAMPORTS_PER_SOL : ℚ),
            ((totalLamports env.feeEnabled inv.amount - env.compressedBalance +
              FEE_RESERVE : ℤ) : ℚ) / (LAMPORTS_PER_SOL : ℚ)⟩⟩) := by
  rw [totalLamports] at hc hw ⊢
  simp only [payInvoiceBody]
  rw [if_pos hk, if_pos hc, if_pos hw]

theorem batchBody_insuff_inv (env : BatchEnv) (rs : List BatchRecipientInput) (c : ErrCtx)
    (h : (executeBatchBody env rs).1 = .error (.sento ⟨.INSUFFICIENT_BALANCE, some c⟩)) :
    (sanitizeRecipients rs ≠ [] ∧
      env.compressedBalance < ((sanitizeRecipients rs).map (·.amount)).sum ∧
      env.walletBalance <
        ((sanitizeRecipients rs).map (·.amount)).sum - env.compressedBalance + FEE_RESERVE) ∧
    c = ⟨(env.walletBalance : ℚ) / (LAMPORTS_PER_SOL : ℚ),
         ((((sanitizeRecipients rs).map (·.amount)).sum - env.compressedBalance +
           FEE_RESERVE : ℤ) : ℚ) / (LAMPORTS_PER_SOL : ℚ)⟩ ∧
    (executeBatchBody env rs).2 = [] := by
  simp only [executeBatchBody] at h ⊢
  by_cases he : (sanitizeRecipients rs).isEmpty
  · rw [if_pos he] at h
    simp at h
  · rw [if_neg he] at h ⊢
    rcases hm : batchTopUp env ((sanitizeRecipients rs).map (·.amount)).sum with ⟨res, acts⟩
    cases res with
    | error e =>
      rw [hm] at h ⊢
      simp only [Except.error.injEq] at h ⊢
      subst h
      obtain ⟨hc, hw, hceq, htr⟩ := batchTopUp_insuff env _ c (by rw [hm])
      have hne : sanitizeRecipients rs ≠ [] := by
        simpa [List.isEmpty_iff] using he
      have hacts : acts = [] := by
        have := htr
        rw [hm] at this
        exact this
      exact ⟨⟨hne, hc, hw⟩, hceq, hacts⟩
    | ok u =>
      rw [hm] at h
      simp only at h
      exact absurd h (batchSettle_not_insuff env _ _ c)

theorem batchBody_insuff_mk (env : BatchEnv) (rs : List BatchRecipientInput)
    (hne : sanitizeRecipients rs ≠ [])
    (hc : env.compressedBalance < ((sanitizeRecipients rs).map (·.amount)).sum)
    (hw : env.walletBalance <
      ((sanitizeRecipients rs).map (·.amount)).sum - env.compressedBalance + FEE_RESERVE) :
    (executeBatchBody env rs).1 = .error (.sento ⟨.INSUFFICIENT_BALANCE,
      some ⟨(env.walletBalance : ℚ) / (LAMPORTS_PER_SOL : ℚ),
            ((((sanitizeRecipients rs).map (·.amount)).sum - env.compressedBalance +
              FEE_RESERVE : ℤ) : ℚ) / (LAMPORTS_PER_SOL : ℚ)⟩⟩) := by
  simp only [executeBatchBody]
  rw [if_neg (by simpa [List.isEmpty_iff] using hne)]
  rw [batchTopUp_insuff_mk env _ hc hw]

/-- C2: a payment or batch fails with `INSUFFICIENT_BALANCE` carrying the
wallet-balance and needed figures exactly when a top-up is needed and the
public wallet balance is below shortfall plus the fee reserve; any such
failure happens before any request is issued (empty trace: no Hide, no
transfer attempt). -/
theorem insufficientBalance_fail_fast :
    (∀ (env : PaymentEnv) (inv : Invoice) (c : ErrCtx),
        (payInvoiceBody env inv).1 = .error (.sento ⟨.INSUFFICIENT_BALANCE, some c⟩) →
        (env.recipientKeyOk = true ∧
          env.compressedBalance < totalLamports env.feeEnabled inv.amount ∧
          env.walletBalance <
            totalLamports env.feeEnabled inv.amount - env.compressedBalance + FEE_RESERVE) ∧
        c = ⟨(env.walletBalance : ℚ) / (LAMPORTS_PER_SOL : ℚ),
             ((totalLamports env.feeEnabled inv.amount - env.compressedBalance +
               FEE_RESERVE : ℤ) : ℚ) / (LAMPORTS_PER_SOL : ℚ)⟩ ∧
        (payInvoiceBody env inv).2 = []) ∧
    (∀ (env : PaymentEnv) (inv : Invoice),
        env.recipientKeyOk = true →
        env.compressedBalance < totalLamports env.feeEnabled inv.amount →
        env.walletBalance <
          totalLamports env.feeEnabled inv.amount - env.compressedBalance + FEE_RESERVE →
        (payInvoiceBody env inv).1 = .error (.sento ⟨.INSUFFICIENT_BALANCE,
          some ⟨(env.walletBalance : ℚ) / (LAMPORTS_PER_SOL : ℚ),
                ((totalLamports env.feeEnabled inv.amount - env.compressedBalance +
                  FEE_RESERVE : ℤ) : ℚ) / (LAMPORTS_PER_SOL : ℚ)⟩⟩)) ∧
    (∀ (env : BatchEnv) (rs : List BatchRecipientInput) (c : ErrCtx),
        (executeBatchBody env rs).1 = .error (.sento ⟨.INSUFFICIENT_BALANCE, some c⟩) →
        (sanitizeRecipients rs ≠ [] ∧
          env.compressedBalance < ((sanitizeRecipients rs).map (·.amount)).sum ∧
          env.walletBalance <
            ((sanitizeRecipients rs).map (·.amount)).sum - env.compressedBalance + FEE_RESERVE) ∧
        c = ⟨(env.walletBalance : ℚ) / (LAMPORTS_PER_SOL : ℚ),
             ((((sanitizeRecipients rs).map (·.amount)).sum - env.compressedBalance +
               FEE_RESERVE : ℤ) : ℚ) / (LAMPORTS_PER_SOL : ℚ)⟩ ∧
        (executeBatchBody env rs).2 = []) ∧
    (∀ (env : BatchEnv) (rs : List BatchRecipientInput),
        sanitizeRecipients rs ≠ [] →
        env.compressedBalance < ((sanitizeRecipients rs).map (·.amount)).sum →
        env.walletBalance <
          ((sanitizeRecipients rs).map (·.amount)).sum - env.compressedBalance + FEE_RESERVE →
        (executeBatchBody env rs).1 = .error (.sento ⟨.INSUFFICIENT_BALANCE,
          some ⟨(env.walletBalance : ℚ) / (LAMPORTS_PER_SOL : ℚ),
                ((((sanitizeRecipients rs).map (·.amount)).sum - env.compressedBalance +
                  FEE_RESERVE : ℤ) : ℚ) / (LAMPORTS_PER_SOL : ℚ)⟩⟩)) := by
  exact ⟨fun env inv c h => payBody_insuff_inv env inv c h,
    fun env inv hk hc hw => payBody_insuff_mk env inv hk hc hw,
    fun env rs c h => batchBody_insuff_inv env rs c h,
    fun env rs hne hc hw => batchBody_insuff_mk env rs hne hc hw⟩

/-- Witness for C2: a concrete underfunded payment and batch hitting the
`INSUFFICIENT_BALANCE` fast-fail, with empty traces. -/
theorem insufficientBalance_fail_fast_witness :
    ((payInvoiceBody wPayEnvPoor wInv).1 = .error (.sento ⟨.INSUFFICIENT_BALANCE,
        some ⟨((2 : ℤ) : ℚ) / ((LAMPORTS_PER_SOL : ℤ) : ℚ),
              ((10000007 : ℤ) : ℚ) / ((LAMPORTS_PER_SOL : ℤ) : ℚ)⟩⟩) ∧
      (payInvoiceBody wPayEnvPoor wInv).2 = []) ∧
    ((executeBatchBody wBatchEnvPoor wReqs).1 = .error (.sento ⟨.INSUFFICIENT_BALANCE,
        some ⟨((2 : ℤ) : ℚ) / ((LAMPORTS_PER_SOL : ℤ) : ℚ),
              ((10000500 : ℤ) : ℚ) / ((LAMPORTS_PER_SOL : ℤ) : ℚ)⟩⟩) ∧
      (executeBatchBody wBatchEnvPoor wReqs).2 = []) := by
  have h1 := insufficientBalance_fail_fast.2.1 wPayEnvPoor wInv (by decide) (by decide) (by decide)
  have h2 := insufficientBalance_fail_fast.2.2.2 wBatchEnvPoor wReqs
    (by decide) (by decide) (by decide)
  have e1 : (payInvoiceBody wPayEnvPoor wInv).2 = [] :=
    (insufficientBalance_fail_fast.1 wPayEnvPoor wInv _ h1).2.2
  have e2 : (executeBatchBody wBatchEnvPoor wReqs).2 = [] :=
    (insufficientBalance_fail_fast.2.2.1 wBatchEnvPoor wReqs _ h2).2.2
  exact ⟨⟨h1, e1⟩, ⟨h2, e2⟩⟩

/-- C3: a batch recipient whose every attempt fails with the transient
queue-congestion error gets exactly 3 attempts, with backoff delays of
base delay (2000 ms) times the attempt number between attempts, and ends
failed with the congestion error's parsed reason; a failure that is not
classified as congestion (after any run of congestion failures) is
terminal at that attempt with no further retry. -/
theorem batch_retry_bound :
    (∀ (results : ℕ → Except String String) (r : BatchRecipient),
        (∀ i, i < 3 → ∃ m, results i = Except.error m ∧ isQueueIssue m = true) →
        ∃ m, results 2 = Except.error m ∧
          processRecipient true results r =
            ({r with status := .failed, error := some (parseErrorMsg m).userMessage},
              3, [2000, 4000])) ∧
    (∀ (results : ℕ → Except String String) (r : BatchRecipient) (k : ℕ) (m : String),
        k < 3 →
        (∀ i, i < k → ∃ m2, results i = Except.error m2 ∧ isQueueIssue m2 = true) →
        results k = .error m → isQueueIssue m = false →
        processRecipient true results r =
          ({r with status := .failed, error := some (parseErrorMsg m).userMessage},
            k + 1, (List.range k).map fun j => (j + 1) * 2000)) := by
  constructor
  · intro results r h
    obtain ⟨m0, hm0, hq0⟩ := h 0 (by norm_num)
    obtain ⟨m1, hm1, hq1⟩ := h 1 (by norm_num)
    obtain ⟨m2, hm2, hq2⟩ := h 2 (by norm_num)
    refine ⟨m2, hm2, ?_⟩
    simp [processRecipient, retryTransfer, MAX_ATTEMPTS, retryGo, hm0, hm1, hm2, hq0, hq1, hq2]
  · intro results r k m hk hprev hm hq
    interval_cases k
    · simp [processRecipient, retryTransfer, MAX_ATTEMPTS, retryGo, hm, hq]
    · obtain ⟨m0, hm0, hq0⟩ := hprev 0 (by norm_num)
      simp [processRecipient, retryTransfer, MAX_ATTEMPTS, retryGo, hm0, hq0, hm, hq,
        List.range_succ]
    · obtain ⟨m0, hm0, hq0⟩ := hprev 0 (by norm_num)
      obtain ⟨m1, hm1, hq1⟩ := hprev 1 (by norm_num)
      simp [processRecipient, retryTransfer, MAX_ATTEMPTS, retryGo, hm0, hq0, hm1, hq1, hm, hq,
        List.range_succ]

/-- Witness for C3: an all-congestion oracle yields 3 attempts, delays
2000 ms and 4000 ms, and a terminal non-congestion failure stops after one
attempt. -/
theorem batch_retry_bound_witness :
    processRecipient true wResultsCongest wRecipient =
      ({wRecipient with status := .failed, error := some (parseErrorMsg "0x232a").userMessage},
        3, [2000, 4000]) ∧
    processRecipient true wResultsTerminal wRecipient =
      ({wRecipient with status := .failed, error := some (parseErrorMsg "boom").userMessage},
        1, []) := by
  constructor
  · obtain ⟨m, hm, hp⟩ := batch_retry_bound.1 wResultsCongest wRecipient
      (fun i _ => ⟨"0x232a", rfl, by decide⟩)
    have hme : m = "0x232a" := by
      have : Except.error (ε := String) (α := String) "0x232a" = Except.error m := hm
      injection this with h2
      exact h2.symm
    rw [hme] at hp
    exact hp
  · have h := batch_retry_bound.2 wResultsTerminal wRecipient 0 "boom" (by norm_num)
      (fun i hi => absurd hi (by omega)) rfl (by decide)
    simpa using h

theorem deriveStatus_spec (rs : List BatchRecipient) (hne : rs ≠ []) :
    (deriveStatus rs = .completed ↔ ∀ r ∈ rs, r.status = .paid) ∧
    (deriveStatus rs = .failed ↔ ∀ r ∈ rs, r.status ≠ .paid) ∧
    (deriveStatus rs = .mixed ↔
      ((∃ r ∈ rs, r.status = .paid) ∧ ∃ r ∈ rs, r.status ≠ .paid)) := by
  simp only [deriveStatus]
  by_cases hall : rs.all (fun r => r.status == .paid) = true
  · rw [if_pos hall]
    simp only [List.all_eq_true, beq_iff_eq] at hall
    obtain ⟨r0, hr0⟩ := List.exists_mem_of_ne_nil rs hne
    refine ⟨⟨fun _ => hall, fun _ => rfl⟩, ?_, ?_⟩
    · constructor
      · intro h; exact absurd h (by simp)
      · intro h; exact absurd (hall r0 hr0) (h r0 hr0)
    · constructor
      · intro h; exact absurd h (by simp)
      · rintro ⟨_, ⟨r2, hr2, hs2⟩⟩; exact absurd (hall r2 hr2) hs2
  · rw [if_neg hall]
    simp only [List.all_eq_true, beq_iff_eq, not_forall] at hall
    by_cases hany : rs.any (fun r => r.status == .paid) = true
    · rw [if_pos hany]
      simp only [List.any_eq_true, beq_iff_eq] at hany
      obtain ⟨rb, hrb, hsb⟩ := hall
      refine ⟨?_, ?_, ?_⟩
      · constructor
        · intro h; exact absurd h (by simp)
        · intro h; exact absurd (h rb hrb) hsb
      · constructor
        · intro h; exact absurd h (by simp)
        · intro h
          obtain ⟨rp, hrp, hsp⟩ := hany
          exact absurd hsp (h rp hrp)
      · exact ⟨fun _ => ⟨hany, ⟨rb, hrb, hsb⟩⟩, fun _ => rfl⟩
    · rw [if_neg hany]
      simp only [List.any_eq_true, beq_iff_eq, not_exists] at hany
      push_neg at hany
      refine ⟨?_, ?_, ?_⟩
      · constructor
        · intro h; exact absurd h (by simp)
        · intro h
          obtain ⟨rb, hrb, hsb⟩ := hall
          exact absurd (h rb hrb) hsb
      · exact ⟨fun _ => hany, fun _ => rfl⟩
      · constructor
        · intro h; exact absurd h (by simp)
        · rintro ⟨⟨rp, hrp, hsp⟩, _⟩; exact absurd hsp (hany rp hrp)

theorem batchSettle_ok_shape (env : BatchEnv) (total : ℤ)
    (sanitized : List BatchRecipientInput) (batch : BatchPayment)
    (h : (batchSettle env total sanitized).1 = .ok batch) :
    batch.status = deriveStatus batch.recipients ∧
    batch.recipients.length = sanitized.length := by
  simp only [batchSettle] at h
  cases hs : env.saveBatchResult with
  | some msg => rw [hs] at h; simp at h
  | none =>
    rw [hs] at h
    simp only [Except.ok.injEq] at h
    subst h
    refine ⟨rfl, ?_⟩
    simp [runRecipients_length]

/-- C4: for every batch execution that returns a batch, the derived status
is `completed` exactly when every recipient outcome is paid, `failed`
exactly when no recipient outcome is paid, and `partial` (`mixed`)
exactly when the outcomes are a mix; there is one outcome per processed
(sanitized) recipient. -/
theorem batch_status_derivation :
    ∀ (env : BatchEnv) (rs : List BatchRecipientInput) (batch : BatchPayment),
      (executeBatch env rs).1 = some batch →
      (batch.status = .completed ↔ ∀ r ∈ batch.recipients, r.status = .paid) ∧
      (batch.status = .failed ↔ ∀ r ∈ batch.recipients, r.status ≠ .paid) ∧
      (batch.status = .mixed ↔
        ((∃ r ∈ batch.recipients, r.status = .paid) ∧
          ∃ r ∈ batch.recipients, r.status ≠ .paid)) ∧
      batch.recipients.length = (sanitizeRecipients rs).length := by
  intro env rs batch h
  rcases hb : executeBatchBody env rs with ⟨res, t⟩
  cases res with
  | error e =>
    rw [executeBatch, hb] at h
    simp at h
  | ok b =>
    rw [executeBatch, hb] at h
    simp only [Option.some.injEq] at h
    subst h
    have h1 : (executeBatchBody env rs).1 = .ok b := by rw [hb]
    simp only [executeBatchBody] at h1
    by_cases he : (sanitizeRecipients rs).isEmpty
    · rw [if_pos he] at h1
      simp at h1
    · rw [if_neg he] at h1
      rcases hm : batchTopUp env ((sanitizeRecipients rs).map (·.amount)).sum with ⟨res2, acts⟩
      cases res2 with
      | error e2 =>
        rw [hm] at h1
        simp at h1
      | ok u =>
        rw [hm] at h1
        simp only at h1
        obtain ⟨hst, hlen⟩ := batchSettle_ok_shape env _ _ b h1
        have hsne : sanitizeRecipients rs ≠ [] := by simpa [List.isEmpty_iff] using he
        have hne : b.recipients ≠ [] := by
          intro hcon
          rw [hcon] at hlen
          exact hsne (List.eq_nil_of_length_eq_zero hlen.symm)
        obtain ⟨i1, i2, i3⟩ := deriveStatus_spec b.recipients hne
        rw [hst]
        exact ⟨i1, i2, i3, hlen⟩

/-- Witness for C4: a concrete single-recipient batch whose returned
record has status `completed` with one paid outcome. -/
theorem batch_status_derivation_witness :
    (executeBatch wBatchEnvRich wReqs).1 = some wBatch ∧
    (wBatch.status = .completed ↔ ∀ r ∈ wBatch.recipients, r.status = .paid) ∧
    wBatch.recipients.length = (sanitizeRecipients wReqs).length := by
  have h := batch_status_derivation wBatchEnvRich wReqs wBatch (by decide)
  exact ⟨by decide, h.1, h.2.2.2⟩

theorem fee_floor_eq_div (a : ℕ) :
    (⌊((a : ℤ) : ℚ) * SENTO_FEE_PERCENTAGE⌋ : ℤ) = ((a * 5 / 1000 : ℕ) : ℤ) := by
  have e1 : ((a : ℤ) : ℚ) * SENTO_FEE_PERCENTAGE = ((a * 5 : ℕ) : ℚ) / 1000 := by
    rw [SENTO_FEE_PERCENTAGE]; push_cast; ring
  rw [e1, Int.floor_eq_iff]
  constructor
  · rw [le_div_iff₀ (by norm_num : (0:ℚ) < 1000)]
    have h := Nat.div_mul_le_self (a * 5) 1000
    exact_mod_cast h
  · rw [div_lt_iff₀ (by norm_num : (0:ℚ) < 1000)]
    have h : a * 5 < (a * 5 / 1000 + 1) * 1000 := by omega
    exact_mod_cast h

/-- C5: the platform fee is `floor(amount * feeRate)` (for non-negative
integer amounts exactly `amount * 5 / 1000` in integer arithmetic) when
fee collection is enabled and `0` when disabled; the total required from
the sender is `amount + fee`, and the payment flow tops up (requests a
Hide or fails with the insufficient-balance error) exactly when the
compressed balance is below that total. -/
theorem payment_total_required :
    (∀ a : ℕ, feeLamports true (a : ℤ) = ((a * 5 / 1000 : ℕ) : ℤ)) ∧
    (∀ a : ℤ, feeLamports false a = 0) ∧
    (∀ (b : Bool) (a : ℤ), totalLamports b a = a + feeLamports b a) ∧
    (∀ (env : PaymentEnv) (inv : Invoice), env.recipientKeyOk = true →
      (((∃ q, Action.hide q ∈ (payInvoiceBody env inv).2) ∨
        (∃ c, (payInvoiceBody env inv).1 = .error (.sento ⟨.INSUFFICIENT_BALANCE, some c⟩)))
       ↔ env.compressedBalance < inv.amount + feeLamports env.feeEnabled inv.amount)) := by
  refine ⟨?_, ?_, ?_, ?_⟩
  · intro a
    rw [feeLamports, if_pos rfl]
    exact fee_floor_eq_div a
  · intro a
    rw [feeLamports]
    simp
  · intro b a
    rw [totalLamports]
  · intro env inv hk
    constructor
    · rintro (⟨q, hq⟩ | ⟨c, hc⟩)
      · by_contra hge
        simp only [payInvoiceBody] at hq
        rw [if_pos hk, if_neg hge] at hq
        exact payTransfers_no_hide env inv _ q hq
      · have h2 := (payBody_insuff_inv env inv c hc).1.2.1
        rw [totalLamports] at h2
        exact h2
    · intro hc
      by_cases hw : env.walletBalance <
          inv.amount + feeLamports env.feeEnabled inv.amount - env.compressedBalance + FEE_RESERVE
      · right
        exact ⟨_, payBody_insuff_mk env inv hk (by rw [totalLamports]; exact hc)
          (by rw [totalLamports]; exact hw)⟩
      · left
        refine ⟨((inv.amount + feeLamports env.feeEnabled inv.amount -
          env.compressedBalance : ℤ) : ℚ) / (LAMPORTS_PER_SOL : ℚ), ?_⟩
        simp only [payInvoiceBody]
        rw [if_pos hk, if_pos hc, if_neg hw]
        cases hh : env.hideResult with
        | some msg => simp
        | none => simp

/-- Witness for C5: the fee bridge at 1 SOL and the top-up threshold at a
concrete underfunded payment. -/
theorem payment_total_required_witness :
    feeLamports true (1000000000 : ℤ) = ((1000000000 * 5 / 1000 : ℕ) : ℤ) ∧
    wPayEnvTopUp.compressedBalance <
      wInv.amount + feeLamports wPayEnvTopUp.feeEnabled wInv.amount ∧
    ((∃ q, Action.hide q ∈ (payInvoiceBody wPayEnvTopUp wInv).2) ∨
      (∃ c, (payInvoiceBody wPayEnvTopUp wInv).1 =
        .error (.sento ⟨.INSUFFICIENT_BALANCE, some c⟩))) := by
  refine ⟨payment_total_required.1 1000000000, by decide, ?_⟩
  exact (payment_total_required.2.2.2 wPayEnvTopUp wInv (by decide)).mpr (by decide)


theorem payTransfers_len2_ok (env : PaymentEnv) (inv : Invoice) (fee : ℤ)
    (h : (transferActs (payTransfers env inv fee).2).length = 2) :
    ∃ s, env.amountTransfer = .ok s := by
  unfold payTransfers at h
  split at h
  · simp [transferActs] at h
  · cases ha : env.amountTransfer with
    | error m =>
      rw [ha] at h
      simp [transferActs, Action.isTransfer] at h
    | ok s => exact ⟨s, rfl⟩

theorem payInvoiceBody_transferActs (env : PaymentEnv) (inv : Invoice) :
    transferActs (payInvoiceBody env inv).2 = [] ∨
    transferActs (payInvoiceBody env inv).2 =
      transferActs (payTransfers env inv (feeLamports env.feeEnabled inv.amount)).2 := by
  simp only [payInvoiceBody]
  by_cases hk : env.recipientKeyOk = true
  · rw [if_pos hk]
    by_cases hc : env.compressedBalance < inv.amount + feeLamports env.feeEnabled inv.amount
    · rw [if_pos hc]
      by_cases hw : env.walletBalance <
          inv.amount + feeLamports env.feeEnabled inv.amount - env.compressedBalance + FEE_RESERVE
      · rw [if_pos hw]
        left
        simp [transferActs]
      · rw [if_neg hw]
        cases hh : env.hideResult with
        | some msg =>
          left
          simp [transferActs, Action.isTransfer]
        | none =>
          right
          simp [transferActs, Action.isTransfer]
    · rw [if_neg hc]
      right
      rfl
  · rw [if_neg hk]
    left
    simp [transferActs]

theorem feeWallet_beq_empty_false (w : String) (hv : isValidPublicKey w = true) :
    (w == "") = false := by
  cases hbe : w == "" with
  | false => rfl
  | true =>
    have hw : w = "" := by simpa using hbe
    rw [hw] at hv
    simp [isValidPublicKey] at hv

theorem payTransfers_fee_fail (env : PaymentEnv) (inv : Invoice) (s msg : String)
    (hfee : 0 < feeLamports env.feeEnabled inv.amount)
    (hv : isValidPublicKey env.feeWallet = true)
    (ha : env.amountTransfer = .ok s)
    (hf : env.feeTransfer = .error msg) :
    payTransfers env inv (feeLamports env.feeEnabled inv.amount) =
      (.error (.plain msg),
        [Action.transfer inv.recipient inv.amount,
         Action.transfer env.feeWallet (feeLamports env.feeEnabled inv.amount)]) := by
  unfold payTransfers
  rw [if_neg (by simp [feeWallet_beq_empty_false env.feeWallet hv, hv])]
  rw [ha]
  simp only
  rw [if_pos hfee, hf]

/-- C6: in a single payment with a nonzero platform fee, the fee-leg
transfer is attempted only after the amount-leg transfer succeeded; when
the fee leg fails the amount leg is not rolled back (the trace holds
exactly the two transfer requests, in order, and no compensating request)
while the fee-leg failure is reported to the caller as the payment's
error. -/
theorem fee_leg_no_rollback :
    (∀ (env : PaymentEnv) (inv : Invoice),
        (transferActs (payInvoiceBody env inv).2).length = 2 →
        ∃ s, env.amountTransfer = .ok s) ∧
    (∀ (env : PaymentEnv) (inv : Invoice) (s msg : String),
        env.recipientKeyOk = true →
        0 < feeLamports env.feeEnabled inv.amount →
        isValidPublicKey env.feeWallet = true →
        env.amountTransfer = .ok s →
        env.feeTransfer = .error msg →
        (¬ env.compressedBalance < totalLamports env.feeEnabled inv.amount ∨
          (env.hideResult = none ∧ ¬ env.walletBalance <
            totalLamports env.feeEnabled inv.amount - env.compressedBalance + FEE_RESERVE)) →
        (payInvoiceBody env inv).1 = .error (.plain msg) ∧
        transferActs (payInvoiceBody env inv).2 =
          [Action.transfer inv.recipient inv.amount,
           Action.transfer env.feeWallet (feeLamports env.feeEnabled inv.amount)]) := by
  constructor
  · intro env inv h
    rcases payInvoiceBody_transferActs env inv with he | he
    · rw [he] at h
      simp at h
    · rw [he] at h
      exact payTransfers_len2_ok env inv _ h
  · intro env inv s msg hk hfee hv ha hf hreach
    have hpt := payTransfers_fee_fail env inv s msg hfee hv ha hf
    rw [totalLamports] at hreach
    by_cases hc : env.compressedBalance < inv.amount + feeLamports env.feeEnabled inv.amount
    · have hrest : env.hideResult = none ∧ ¬ env.walletBalance <
          inv.amount + feeLamports env.feeEnabled inv.amount - env.compressedBalance + FEE_RESERVE := by
        rcases hreach with h1 | h1
        · exact absurd hc h1
        · exact h1
      simp only [payInvoiceBody]
      rw [if_pos hk, if_pos hc, if_neg hrest.2, hrest.1, hpt]
      exact ⟨rfl, by simp [transferActs, Action.isTransfer]⟩
    · simp only [payInvoiceBody]
      rw [if_pos hk, if_neg hc, hpt]
      exact ⟨rfl, by simp [transferActs, Action.isTransfer]⟩

/-- Witness for C6: a concrete fee-enabled payment whose amount leg
succeeds and fee leg fails. -/
theorem fee_leg_no_rollback_witness :
    (payInvoiceBody wPayEnvFeeFail wInvBig).1 = .error (.plain "boom") ∧
    transferActs (payInvoiceBody wPayEnvFeeFail wInvBig).2 =
      [Action.transfer keyA 1000000, Action.transfer keyB 5000] := by
  have hfee : feeLamports wPayEnvFeeFail.feeEnabled wInvBig.amount = 5000 := by
    have h1 := fee_floor_eq_div 1000000
    norm_num at h1
    show feeLamports true (1000000 : ℤ) = 5000
    rw [feeLamports, if_pos rfl]
    exact_mod_cast h1
  have h := fee_leg_no_rollback.2 wPayEnvFeeFail wInvBig "sigA" "boom" (by decide)
    (by rw [hfee]; norm_num) (by decide) rfl rfl
    (Or.inl (by rw [totalLamports, hfee]; decide))
  rw [hfee] at h
  exact h


theorem batchTopUp_trace_cases (env : BatchEnv) (total : ℤ) :
    (batchTopUp env total).2 = [] ∨
    (batchTopUp env total).2 =
      [Action.hide (((total - env.compressedBalance : ℤ) : ℚ) / (LAMPORTS_PER_SOL : ℚ))] := by
  simp only [batchTopUp]
  by_cases hc : env.compressedBalance < total
  · rw [if_pos hc]
    by_cases hw : env.walletBalance < total - env.compressedBalance + FEE_RESERVE
    · rw [if_pos hw]
      exact Or.inl rfl
    · rw [if_neg hw]
      cases env.hideResult with
      | some msg => exact Or.inr rfl
      | none => exact Or.inr rfl
  · rw [if_neg hc]
    exact Or.inl rfl

theorem batchSettle_transfer_mem (env : BatchEnv) (total : ℤ)
    (sanitized : List BatchRecipientInput) (w : String) (a : ℤ)
    (h : Action.transfer w a ∈ (batchSettle env total sanitized).2) :
    ∃ r ∈ sanitized, r.wallet = w ∧ r.amount = a := by
  simp only [batchSettle] at h
  have fromRun : ∀ (h1 : Action.transfer w a ∈
      (runRecipients env.keyOk env.transferResults 0 (sanitized.map fun r =>
        ({wallet := r.wallet, amount := r.amount, note := r.note,
          status := .pending} : BatchRecipient))).2),
      ∃ r ∈ sanitized, r.wallet = w ∧ r.amount = a := by
    intro h1
    obtain ⟨r, hr, he⟩ := runRecipients_trace_mem env.keyOk env.transferResults _ 0 _ h1
    obtain ⟨sr, hsr, hre⟩ := List.mem_map.mp hr
    injection he with he1 he2
    subst hre
    exact ⟨sr, hsr, he1.symm, he2.symm⟩
  cases hs : env.saveBatchResult with
  | some msg =>
    rw [hs] at h
    rcases List.mem_append.mp h with h1 | h1
    · exact fromRun h1
    · simp at h1
  | none =>
    rw [hs] at h
    rcases List.mem_append.mp h with h1 | h1
    · rcases List.mem_append.mp h1 with h2 | h2
      · exact fromRun h2
      · simp at h2
    · rw [saveInvoicesLoop_eq_map] at h1
      obtain ⟨r, _, he⟩ := List.mem_map.mp h1
      exact absurd he (by simp)

/-- C7: batch execution validates every request up front: requests with a
malformed destination or non-positive amount never reach any external
call (every transfer request in the trace is for a validated recipient,
so no retry ever runs for a validation failure), and a batch with no valid
request at all is rejected with `INVALID_ADDRESS` and an empty trace. -/
theorem batch_validation_fail_fast :
    (∀ (env : BatchEnv) (rs : List BatchRecipientInput),
        sanitizeRecipients rs = [] →
        executeBatchBody env rs = (.error (.sento ⟨.INVALID_ADDRESS, none⟩), [])) ∧
    (∀ (env : BatchEnv) (rs : List BatchRecipientInput) (w : String) (a : ℤ),
        Action.transfer w a ∈ (executeBatchBody env rs).2 →
        a > 0 ∧ isValidPublicKey w = true) := by
  constructor
  · intro env rs h
    simp only [executeBatchBody]
    rw [if_pos (by simp [List.isEmpty_iff, h])]
  · intro env rs w a hmem
    simp only [executeBatchBody] at hmem
    by_cases he : (sanitizeRecipients rs).isEmpty
    · rw [if_pos he] at hmem
      simp at hmem
    · rw [if_neg he] at hmem
      rcases hm : batchTopUp env ((sanitizeRecipients rs).map (·.amount)).sum with ⟨res, acts⟩
      have hacts : Action.transfer w a ∉ acts := by
        intro hin
        rcases batchTopUp_trace_cases env ((sanitizeRecipients rs).map (·.amount)).sum
          with h2 | h2 <;> rw [hm] at h2 <;> simp only at h2 <;> rw [h2] at hin <;> simp at hin
      cases res with
      | error e =>
        rw [hm] at hmem
        simp only at hmem
        exact absurd hmem hacts
      | ok u =>
        rw [hm] at hmem
        simp only at hmem
        rcases List.mem_append.mp hmem with h1 | h1
        · exact absurd h1 hacts
        · obtain ⟨sr, hsr, hw1, ha1⟩ := batchSettle_transfer_mem env _ _ w a h1
          rw [sanitizeRecipients] at hsr
          have hp := (List.mem_filter.mp hsr).2
          simp only [Bool.and_eq_true, decide_eq_true_eq] at hp
          exact ⟨ha1 ▸ hp.1, hw1 ▸ hp.2⟩

/-- Witness for C7: a batch whose every request is invalid (malformed
destination or non-positive amount) is rejected with `INVALID_ADDRESS`
and an empty trace, and a concrete transfer request in a valid batch's
trace satisfies the validation predicate. -/
theorem batch_validation_fail_fast_witness :
    (sanitizeRecipients wBadReqs = [] ∧
      executeBatchBody wBatchEnv wBadReqs = (.error (.sento ⟨.INVALID_ADDRESS, none⟩), [])) ∧
    (Action.transfer keyA 500 ∈ (executeBatchBody wBatchEnv wReqs).2 ∧
      (500 : ℤ) > 0 ∧ isValidPublicKey keyA = true) := by
  have hmem : Action.transfer keyA 500 ∈ (executeBatchBody wBatchEnv wReqs).2 := by
    have ht : (executeBatchBody wBatchEnv wReqs).2 =
        [Action.hide (((500 : ℤ) : ℚ) / ((LAMPORTS_PER_SOL : ℤ) : ℚ)),
         Action.transfer keyA 500, Action.saveBatch, Action.saveInvoice keyA 500] := rfl
    rw [ht]
    simp
  exact ⟨⟨by decide, batch_validation_fail_fast.1 wBatchEnv wBadReqs (by decide)⟩,
    ⟨hmem, batch_validation_fail_fast.2 wBatchEnv wReqs keyA 500 hmem⟩⟩

theorem saveInvoiceActs_map (rs : List BatchRecipient) :
    saveInvoiceActs (rs.map fun r => Action.saveInvoice r.wallet r.amount) =
      rs.map fun r => Action.saveInvoice r.wallet r.amount := by
  induction rs with
  | nil => rfl
  | cons r rest ih =>
    simp only [List.map_cons, saveInvoiceActs, List.filter_cons] at ih ⊢
    simp [ih]

theorem saveInvoiceActs_runRecipients (keyOk : ℕ → Bool)
    (results : ℕ → ℕ → Except String String) (pend : List BatchRecipient) (i : ℕ) :
    saveInvoiceActs (runRecipients keyOk results i pend).2 = [] := by
  rw [saveInvoiceActs, List.filter_eq_nil_iff]
  intro a ha
  obtain ⟨r, _, he⟩ := runRecipients_trace_mem keyOk results pend i a ha
  subst he
  simp

theorem batchSettle_saveInvoiceActs (env : BatchEnv) (total : ℤ)
    (sanitized : List BatchRecipientInput) (batch : BatchPayment)
    (h : (batchSettle env total sanitized).1 = .ok batch) :
    saveInvoiceActs (batchSettle env total sanitized).2 =
      (batch.recipients.filter fun r => r.status == .paid).map
        fun r => Action.saveInvoice r.wallet r.amount := by
  simp only [batchSettle] at h ⊢
  cases hs : env.saveBatchResult with
  | some msg =>
    rw [hs] at h
    simp at h
  | none =>
    rw [hs] at h
    simp only [Except.ok.injEq] at h
    subst h
    rw [saveInvoicesLoop_eq_map]
    simp only [saveInvoiceActs, List.filter_append]
    rw [← saveInvoiceActs, ← saveInvoiceActs, ← saveInvoiceActs,
      saveInvoiceActs_runRecipients, saveInvoiceActs_map]
    simp [saveInvoiceActs]

theorem executeBatchBody_invoice_indep (env : BatchEnv)
    (rs : List BatchRecipientInput) (f : ℕ → Option String) :
    executeBatchBody {env with saveInvoiceResult := f} rs = executeBatchBody env rs := by
  simp only [executeBatchBody, batchTopUp, batchSettle, saveInvoicesLoop_eq_map]

/-- C10: the outcome of `executeBatch` — result and trace alike — does not
depend on whether the per-recipient invoice writes succeed or throw (the
failure is swallowed: recipients stay paid with their signatures and the
batch outcome is returned unchanged), and a returned batch's trace holds
one invoice write per paid recipient. -/
theorem invoice_failure_swallowed :
    (∀ (env : BatchEnv) (rs : List BatchRecipientInput) (f : ℕ → Option String),
        executeBatch {env with saveInvoiceResult := f} rs = executeBatch env rs) ∧
    (∀ (env : BatchEnv) (rs : List BatchRecipientInput) (batch : BatchPayment),
        (executeBatch env rs).1 = some batch →
        saveInvoiceActs (executeBatch env rs).2 =
          (batch.recipients.filter fun r => r.status == .paid).map
            fun r => Action.saveInvoice r.wallet r.amount) := by
  constructor
  · intro env rs f
    rw [executeBatch, executeBatch, executeBatchBody_invoice_indep]
  · intro env rs batch h
    rcases hb : executeBatchBody env rs with ⟨res, t⟩
    cases res with
    | error e =>
      rw [executeBatch, hb] at h
      simp at h
    | ok b =>
      rw [executeBatch, hb] at h
      simp only [Option.some.injEq] at h
      subst h
      rw [executeBatch, hb]
      simp only
      have h1 : executeBatchBody env rs = (.ok b, t) := hb
      simp only [executeBatchBody] at h1
      by_cases he : (sanitizeRecipients rs).isEmpty
      · rw [if_pos he] at h1
        simp at h1
      · rw [if_neg he] at h1
        rcases hm : batchTopUp env ((sanitizeRecipients rs).map (·.amount)).sum with ⟨res2, acts⟩
        cases res2 with
        | error e2 =>
          rw [hm] at h1
          simp at h1
        | ok u =>
          rw [hm] at h1
          simp only [Prod.mk.injEq] at h1
          obtain ⟨hok, htr⟩ := h1
          rw [← htr]
          rw [saveInvoiceActs, List.filter_append, ← saveInvoiceActs, ← saveInvoiceActs]
          have hacts : saveInvoiceActs acts = [] := by
            rcases batchTopUp_trace_cases env ((sanitizeRecipients rs).map (·.amount)).sum
              with h2 | h2 <;> rw [hm] at h2 <;> simp only at h2 <;> rw [h2] <;>
              simp [saveInvoiceActs]
          rw [hacts, batchSettle_saveInvoiceActs env _ _ b hok]
          simp

/-- Witness for C10: a concrete batch whose every invoice write throws
still returns the completed batch with one invoice write requested for
its paid recipient. -/
theorem invoice_failure_swallowed_witness :
    (executeBatch wBatchEnvRich wReqs).1 = some wBatch ∧
    saveInvoiceActs (executeBatch wBatchEnvRich wReqs).2 =
      (wBatch.recipients.filter fun r => r.status == .paid).map
        fun r => Action.saveInvoice r.wallet r.amount :=
  ⟨by decide, invoice_failure_swallowed.2 wBatchEnvRich wReqs wBatch (by decide)⟩

end Sento
